import Mathlib

/-!
Verification of the funding-rate aggregation service.

This file shallowly embeds the core of the service (the aggregator
fetchAllExchangeData, the six per-exchange rate normalizers, the arbitrage
detector calculateArbitrageOpportunities, and the TTL snapshot cache of the
API handler and the periodic broadcast) as pure Lean functions, and proves or
refutes the specified properties about them.

Modelling conventions:
* JavaScript numbers are modelled as exact rationals; the claims under study
  are threshold/sign/role properties that do not hinge on double rounding.
* A raw decimal string field (the code only ever applies JS truthiness and
  parseFloat to those) is modelled by the structure JStr: its truthiness and
  its parse result, where a parse result of none models NaN.
* A numeric field that may be absent or NaN is modelled as Option; none is
  exactly the falsy-number case (undefined or NaN) of the code.
* A null response from an upstream exchange (transport error, non-2xx, JSON
  parse failure) is modelled as none at the payload level.
-/

namespace FundingRate

/-- Truthiness and parseFloat view of a raw string field. parsed = none models
a string on which parseFloat yields NaN (such as the string NaN produced by
toFixed on a NaN value). -/
structure JStr where
  truthy : Bool
  parsed : Option ℚ
deriving DecidableEq, Repr

/-- The canonical rate record produced by the normalizers, as consumed by the
merge filter and the arbitrage detector. settlementInterval = none models an
absent or NaN interval (a falsy number in the code); isHourly models the
optional isHourly flag read by the detector (absent on normalizer output,
hence false). The optional OKX-only timestamp fields are not carried: no
claim and no later code reads them. -/
structure Rate where
  symbol : String
  exchange : String
  currentRate : Option JStr
  settlementInterval : Option ℚ
  isSpecialInterval : Bool
  isHourly : Bool
deriving DecidableEq, Repr

/-- A rate after the detector's grouping step: currentRate parsed to a number
and settlementInterval defaulted to a number. -/
structure GRate where
  symbol : String
  exchange : String
  currentRate : ℚ
  settlementInterval : ℚ
  isSpecialInterval : Bool
  isHourly : Bool
deriving DecidableEq, Repr

/-- The two opportunity strategies of the detector. -/
inductive OppType
  | different_period
  | same_period
deriving DecidableEq, Repr

/-- An emitted arbitrage opportunity. The two strategies populate different
period fields, modelled with Option (none = field absent on that variant). -/
structure Opp where
  symbol : String
  type : OppType
  longExchange : String
  shortExchange : String
  longRate : ℚ
  shortRate : ℚ
  rateDiff : ℚ
  settlementPeriod1 : Option ℚ
  settlementPeriod2 : Option ℚ
  settlementPeriod : Option ℚ
  expectedProfit : Option ℚ
  annualYield : ℚ
deriving DecidableEq, Repr

/-- The ternary picking the shorter-period rate of a pair
(rate1.settlementInterval < rate2.settlementInterval ? rate1 : rate2). -/
def shorterOf (rate1 rate2 : GRate) : GRate :=
  if rate1.settlementInterval < rate2.settlementInterval then rate1 else rate2

/-- The ternary picking the longer-period rate of a pair. -/
def longerOf (rate1 rate2 : GRate) : GRate :=
  if rate1.settlementInterval < rate2.settlementInterval then rate2 else rate1

/-- Body of the detector's inner pair loop: given two grouped rates of the
same symbol group, the opportunity pushed for this pair, if any. Mirrors the
two strategy branches of calculateArbitrageOpportunities. -/
def processPair (symbol : String) (rate1 rate2 : GRate) : Option Opp :=
  if rate1.settlementInterval ≠ rate2.settlementInterval then
    let shortPeriodRate := shorterOf rate1 rate2
    let longPeriodRate := longerOf rate1 rate2
    if shortPeriodRate.currentRate < 0 then
      let expectedProfit := |shortPeriodRate.currentRate|
      let annualYield := expectedProfit * (24 / shortPeriodRate.settlementInterval) * 365
      if expectedProfit > 0.005 then
        some { symbol := symbol
               type := OppType.different_period
               longExchange := shortPeriodRate.exchange
               shortExchange := longPeriodRate.exchange
               longRate := shortPeriodRate.currentRate
               shortRate := longPeriodRate.currentRate
               rateDiff := |shortPeriodRate.currentRate - longPeriodRate.currentRate|
               settlementPeriod1 := some shortPeriodRate.settlementInterval
               settlementPeriod2 := some longPeriodRate.settlementInterval
               settlementPeriod := none
               expectedProfit := some expectedProfit
               annualYield := annualYield }
      else none
    else none
  else
    let rateDiff := rate1.currentRate - rate2.currentRate
    if |rateDiff| < 0.001 then none
    else
      let annualYield := |rateDiff| * (24 / rate1.settlementInterval) * 365
      if annualYield > 1 then
        some { symbol := symbol
               type := OppType.same_period
               longExchange := if rateDiff > 0 then rate2.exchange else rate1.exchange
               shortExchange := if rateDiff > 0 then rate1.exchange else rate2.exchange
               longRate := if rateDiff > 0 then rate2.currentRate else rate1.currentRate
               shortRate := if rateDiff > 0 then rate1.currentRate else rate2.currentRate
               rateDiff := |rateDiff|
               settlementPeriod1 := none
               settlementPeriod2 := none
               settlementPeriod := some rate1.settlementInterval
               expectedProfit := none
               annualYield := annualYield }
      else none

/-- Guard at the top of the detector's grouping forEach:
skip a rate with falsy symbol, falsy exchange, or undefined currentRate. -/
def guardOk (rate : Rate) : Bool :=
  !(rate.symbol == "" || rate.exchange == "" || rate.currentRate == none)

/-- The grouping step's settlement interval defaulting:
rate.settlementInterval || (rate.isHourly ? 1 : 8), where a falsy number
(absent, NaN, or 0) is replaced by the default. -/
def defaultedInterval (rate : Rate) : ℚ :=
  match rate.settlementInterval with
  | some v => if v = 0 then (if rate.isHourly then 1 else 8) else v
  | none => if rate.isHourly then 1 else 8

/-- parseFloat(rate.currentRate): none when the field is undefined or the
string does not parse. -/
def parsedRate (rate : Rate) : Option ℚ :=
  match rate.currentRate with
  | some js => js.parsed
  | none => none

/-- The grouped entry pushed for a rate, if the guard passes and its rate
parses: the record spread with numeric currentRate and defaulted interval. -/
def mkGrouped (rate : Rate) : Option GRate :=
  if guardOk rate then
    (parsedRate rate).map fun q =>
      { symbol := rate.symbol
        exchange := rate.exchange
        currentRate := q
        settlementInterval := defaultedInterval rate
        isSpecialInterval := rate.isSpecialInterval
        isHourly := rate.isHourly }
  else none

/-- One step of the grouping fold. The group key is created as soon as the
guard passes (before the NaN check), exactly as in the code, so a key with an
empty member list can exist; it contributes no pairs. -/
def groupStep (gs : List (String × List GRate)) (rate : Rate) :
    List (String × List GRate) :=
  if guardOk rate then
    let gs1 := if gs.any (fun p => p.1 == rate.symbol) then gs
               else gs ++ [(rate.symbol, [])]
    match mkGrouped rate with
    | some g => gs1.map fun p => if p.1 == rate.symbol then (p.1, p.2 ++ [g]) else p
    | none => gs1
  else gs

/-- Partition of the input rates by symbol, in key insertion order. -/
def groupRates (rates : List Rate) : List (String × List GRate) :=
  rates.foldl groupStep []

/-- All ordered index pairs i < j of a list, in the nested-loop order of the
detector. -/
def allPairs {α : Type} : List α → List (α × α)
  | [] => []
  | x :: xs => (xs.map fun y => (x, y)) ++ allPairs xs

/-- The unsorted opportunity list: for each symbol group in insertion order,
every pair i < j through processPair. -/
def calcOppsRaw (rates : List Rate) : List Opp :=
  (groupRates rates).flatMap fun p =>
    (allPairs p.2).filterMap fun q => processPair p.1 q.1 q.2

/-- The comparator of the final sort, as the relation: a precedes-or-ties b.
Corresponds to comparator values that are not positive: different_period
before same_period, and within one type descending annualYield. -/
def oppLe (a b : Opp) : Prop :=
  if a.type = b.type then b.annualYield ≤ a.annualYield
  else a.type = OppType.different_period

instance : DecidableRel oppLe := fun a b => by
  unfold oppLe
  infer_instance

instance : IsTotal Opp oppLe where
  total a b := by
    unfold oppLe
    by_cases h : a.type = b.type
    · rw [if_pos h, if_pos h.symm]
      exact le_total _ _
    · rw [if_neg h, if_neg (fun hh => h hh.symm)]
      cases ha : a.type
      · exact Or.inl rfl
      · cases hb : b.type
        · exact Or.inr rfl
        · exact absurd (ha.trans hb.symm) h

instance : IsTrans Opp oppLe where
  trans a b c hab hbc := by
    unfold oppLe at hab hbc ⊢
    by_cases h1 : a.type = b.type <;> by_cases h2 : b.type = c.type
    · rw [if_pos h1] at hab
      rw [if_pos h2] at hbc
      rw [if_pos (h1.trans h2)]
      exact le_trans hbc hab
    · rw [if_pos h1] at hab
      rw [if_neg h2] at hbc
      rw [if_neg (fun hh => h2 (h1.symm.trans hh))]
      exact h1.trans hbc
    · rw [if_neg h1] at hab
      rw [if_pos h2] at hbc
      rw [if_neg (fun hh => h1 (hh.trans h2.symm))]
      exact hab
    · rw [if_neg h1] at hab
      rw [if_neg h2] at hbc
      exact absurd (hab.trans hbc.symm) h1

/-- The arbitrage detector: grouping, pairwise strategies, final sort. -/
def calculateArbitrageOpportunities (rates : List Rate) : List Opp :=
  List.insertionSort oppLe (calcOppsRaw rates)

/-- C1: for a pair of grouped rates with different settlement intervals, the
detector emits a (different_period) opportunity if and only if the
shorter-period rate is strictly negative and its absolute value, the expected
profit, exceeds 0.005; the emitted record carries
annualYield = expectedProfit * (24 / short interval) * 365,
longExchange = the short-period exchange and shortExchange = the long-period
exchange. -/
theorem c1_different_period (symbol : String) (rate1 rate2 : GRate)
    (h : rate1.settlementInterval ≠ rate2.settlementInterval) :
    ((processPair symbol rate1 rate2).isSome = true ↔
      ((shorterOf rate1 rate2).currentRate < 0 ∧
        0.005 < |(shorterOf rate1 rate2).currentRate|)) ∧
    (∀ o, processPair symbol rate1 rate2 = some o →
      o.type = OppType.different_period ∧
      o.expectedProfit = some |(shorterOf rate1 rate2).currentRate| ∧
      o.annualYield = |(shorterOf rate1 rate2).currentRate| *
        (24 / (shorterOf rate1 rate2).settlementInterval) * 365 ∧
      o.longExchange = (shorterOf rate1 rate2).exchange ∧
      o.shortExchange = (longerOf rate1 rate2).exchange) := by
  unfold processPair
  rw [if_pos h]
  by_cases h1 : (shorterOf rate1 rate2).currentRate < 0
  · rw [if_pos h1]
    by_cases h2 : 0.005 < |(shorterOf rate1 rate2).currentRate|
    · rw [if_pos h2]
      refine ⟨by simp [h1, h2], ?_⟩
      intro o ho
      cases ho
      exact ⟨rfl, rfl, rfl, rfl, rfl⟩
    · rw [if_neg h2]
      exact ⟨by simp [h2], by intro o ho; cases ho⟩
  · rw [if_neg h1]
    exact ⟨by simp [h1], by intro o ho; cases ho⟩

/-- Witness for C1 at the concrete pair HyperLiquid 1h at -0.008 percent
versus OKX 8h at 0.002 percent: an opportunity is emitted. -/
def gHL : GRate :=
  { symbol := "ETH", exchange := "HyperLiquid", currentRate := -0.008
    settlementInterval := 1, isSpecialInterval := true, isHourly := false }

/-- Witness rate on the OKX side for C1. -/
def gOKX : GRate :=
  { symbol := "ETH", exchange := "OKX", currentRate := 0.002
    settlementInterval := 8, isSpecialInterval := false, isHourly := false }

/-- C1 witness: the hypothesis holds at the concrete pair and the detector
emits an opportunity there. -/
theorem c1_witness :
    gHL.settlementInterval ≠ gOKX.settlementInterval ∧
    (processPair "ETH" gHL gOKX).isSome = true := by
  have hne : gHL.settlementInterval ≠ gOKX.settlementInterval := by
    show (1 : ℚ) ≠ 8
    norm_num
  have hs : shorterOf gHL gOKX = gHL := by
    unfold shorterOf
    rw [if_pos]
    show (1 : ℚ) < 8
    norm_num
  have hneg : (shorterOf gHL gOKX).currentRate < 0 := by
    rw [hs]
    show (-0.008 : ℚ) < 0
    norm_num
  refine ⟨hne, (c1_different_period "ETH" gHL gOKX hne).1.mpr ⟨hneg, ?_⟩⟩
  rw [abs_of_neg hneg, hs]
  show (0.005 : ℚ) < -(-0.008 : ℚ)
  norm_num

/-- C2: for a pair of grouped rates with equal (nonzero) settlement
intervals, the detector emits a (same_period) opportunity if and only if the
absolute rate difference is at least 0.001 and the annual yield
|rateDiff| * (24 / interval) * 365 strictly exceeds 1; the record assigns the
lower-rate exchange to longExchange and the higher-rate exchange to
shortExchange. -/
theorem c2_same_period (symbol : String) (rate1 rate2 : GRate)
    (h : rate1.settlementInterval = rate2.settlementInterval)
    (hz : rate1.settlementInterval ≠ 0) :
    ((processPair symbol rate1 rate2).isSome = true ↔
      (0.001 ≤ |rate1.currentRate - rate2.currentRate| ∧
        1 < |rate1.currentRate - rate2.currentRate| *
          (24 / rate1.settlementInterval) * 365)) ∧
    (∀ o, processPair symbol rate1 rate2 = some o →
      o.type = OppType.same_period ∧
      o.annualYield = |rate1.currentRate - rate2.currentRate| *
        (24 / rate1.settlementInterval) * 365 ∧
      (rate1.currentRate < rate2.currentRate →
        o.longExchange = rate1.exchange ∧ o.shortExchange = rate2.exchange) ∧
      (rate2.currentRate < rate1.currentRate →
        o.longExchange = rate2.exchange ∧ o.shortExchange = rate1.exchange)) := by
  unfold processPair
  rw [if_neg (by simp [h])]
  by_cases h1 : |rate1.currentRate - rate2.currentRate| < 0.001
  · rw [if_pos h1]
    exact ⟨by simp [not_le.mpr h1], by intro o ho; cases ho⟩
  · rw [if_neg h1]
    by_cases h2 : 1 < |rate1.currentRate - rate2.currentRate| *
        (24 / rate1.settlementInterval) * 365
    · rw [if_pos h2]
      refine ⟨by simp [not_lt.mp h1, h2], ?_⟩
      intro o ho
      cases ho
      refine ⟨rfl, rfl, ?_, ?_⟩
      · intro hlt
        have hd : ¬rate1.currentRate - rate2.currentRate > 0 := by linarith
        constructor
        · show (if rate1.currentRate - rate2.currentRate > 0 then rate2.exchange
                else rate1.exchange) = rate1.exchange
          rw [if_neg hd]
        · show (if rate1.currentRate - rate2.currentRate > 0 then rate1.exchange
                else rate2.exchange) = rate2.exchange
          rw [if_neg hd]
      · intro hlt
        have hd : rate1.currentRate - rate2.currentRate > 0 := by linarith
        constructor
        · show (if rate1.currentRate - rate2.currentRate > 0 then rate2.exchange
                else rate1.exchange) = rate2.exchange
          rw [if_pos hd]
        · show (if rate1.currentRate - rate2.currentRate > 0 then rate1.exchange
                else rate2.exchange) = rate1.exchange
          rw [if_pos hd]
    · rw [if_neg h2]
      exact ⟨by simp [h2], by intro o ho; cases ho⟩

/-- Witness rate for C2, Binance side (same 8h interval). -/
def gBinance : GRate :=
  { symbol := "BTC", exchange := "Binance", currentRate := 0.01
    settlementInterval := 8, isSpecialInterval := false, isHourly := false }

/-- Witness rate for C2, Bybit side. -/
def gBybit : GRate :=
  { symbol := "BTC", exchange := "Bybit", currentRate := -0.005
    settlementInterval := 8, isSpecialInterval := false, isHourly := false }

/-- C2 witness: the hypotheses hold at the concrete same-period pair and the
detector emits an opportunity there. -/
theorem c2_witness :
    gBinance.settlementInterval = gBybit.settlementInterval ∧
    gBinance.settlementInterval ≠ 0 ∧
    (processPair "BTC" gBinance gBybit).isSome = true := by
  have hz : gBinance.settlementInterval ≠ 0 := by
    show (8 : ℚ) ≠ 0
    norm_num
  refine ⟨rfl, hz, (c2_same_period "BTC" gBinance gBybit rfl hz).1.mpr ⟨?_, ?_⟩⟩
  · show (0.001 : ℚ) ≤ |(0.01 : ℚ) - -0.005|
    rw [abs_of_pos (by norm_num)]
    norm_num
  · show (1 : ℚ) < |(0.01 : ℚ) - -0.005| * (24 / (8 : ℚ)) * 365
    rw [abs_of_pos (by norm_num)]
    norm_num

/-- C5: in the detector's output, a same_period opportunity is never followed
by a different_period one (so all different_period entries precede all
same_period entries), and within one type the annualYield values are
non-increasing. -/
theorem c5_ranking (rates : List Rate) :
    List.Pairwise (fun a b : Opp =>
      (a.type = OppType.same_period → b.type = OppType.same_period) ∧
      (a.type = b.type → b.annualYield ≤ a.annualYield))
      (calculateArbitrageOpportunities rates) := by
  have hs := List.sorted_insertionSort oppLe (calcOppsRaw rates)
  refine List.Pairwise.imp ?_ hs
  intro a b hab
  unfold oppLe at hab
  by_cases h : a.type = b.type
  · rw [if_pos h] at hab
    exact ⟨fun hsame => h ▸ hsame, fun _ => hab⟩
  · rw [if_neg h] at hab
    refine ⟨fun hsame => ?_, fun hh => absurd hh h⟩
    rw [hsame] at hab
    cases hab

/-- C7: the detector is a pure function of its input rate list; a second run
on the same list yields the identical, identically ordered output. -/
theorem c7_deterministic (rates : List Rate) :
    calculateArbitrageOpportunities rates = calculateArbitrageOpportunities rates :=
  rfl

/-- C10: a rate whose settlementInterval is absent or zero (a falsy number)
is not rejected by the grouping step: it is grouped with the default interval
of 1 hour when isHourly is set and 8 hours otherwise, and its entry is what
the pair loops of the detector then range over. -/
theorem c10_grouping_defaults (rate : Rate) (js : JStr) (q : ℚ)
    (hsym : rate.symbol ≠ "") (hex : rate.exchange ≠ "")
    (hcr : rate.currentRate = some js) (hq : js.parsed = some q)
    (hsi : rate.settlementInterval = none ∨ rate.settlementInterval = some 0) :
    ∃ g, mkGrouped rate = some g ∧
      g.settlementInterval = (if rate.isHourly then 1 else 8) ∧
      g.currentRate = q ∧
      groupRates [rate] = [(rate.symbol, [g])] := by
  have hguard : guardOk rate = true := by
    unfold guardOk
    simp [hsym, hex, hcr]
  have hdef : defaultedInterval rate = (if rate.isHourly then 1 else 8) := by
    unfold defaultedInterval
    rcases hsi with h | h <;> rw [h]
    simp
  have hparse : parsedRate rate = some q := by
    unfold parsedRate
    rw [hcr]
    exact hq
  refine ⟨{ symbol := rate.symbol, exchange := rate.exchange, currentRate := q
            settlementInterval := defaultedInterval rate
            isSpecialInterval := rate.isSpecialInterval
            isHourly := rate.isHourly }, ?_, hdef, rfl, ?_⟩
  · unfold mkGrouped
    rw [if_pos hguard, hparse]
    rfl
  · unfold groupRates
    show groupStep [] rate = _
    unfold groupStep
    rw [if_pos hguard]
    unfold mkGrouped
    rw [if_pos hguard, hparse]
    simp

/-- Witness rate for C10: valid symbol, exchange and rate, but no
settlementInterval field. -/
def noIntervalRate : Rate :=
  { symbol := "BTC", exchange := "Binance", currentRate := some ⟨true, some 1⟩
    settlementInterval := none, isSpecialInterval := false, isHourly := false }

/-- C10 witness: the hypotheses hold at a concrete rate lacking its
settlementInterval, and the grouping step keeps it with interval 8. -/
theorem c10_witness :
    noIntervalRate.symbol ≠ "" ∧ noIntervalRate.exchange ≠ "" ∧
    (noIntervalRate.settlementInterval = none ∨
      noIntervalRate.settlementInterval = some 0) ∧
    ∃ g, mkGrouped noIntervalRate = some g ∧
      g.settlementInterval = (if noIntervalRate.isHourly then 1 else 8) ∧
      g.currentRate = 1 ∧
      groupRates [noIntervalRate] = [(noIntervalRate.symbol, [g])] :=
  ⟨by decide, by decide, Or.inl rfl,
   c10_grouping_defaults noIntervalRate ⟨true, some 1⟩ 1
     (by decide) (by decide) rfl rfl (Or.inl rfl)⟩

/-! ### Exchange normalizers and the aggregator -/

/-- JS endsWith on strings. -/
def jsEndsWith (s pat : String) : Bool :=
  List.isSuffixOf pat.data s.data

/-- Drop the first occurrence of pat from a character list, keeping the rest
(the semantics of JS String.replace with a plain-string pattern and an empty
replacement). -/
def dropFirstOcc (pat : List Char) : List Char → List Char
  | [] => []
  | c :: cs =>
    if List.isPrefixOf pat (c :: cs) then List.drop pat.length (c :: cs)
    else c :: dropFirstOcc pat cs

/-- JS s.replace(pat, empty string): remove the first occurrence of pat. -/
def jsReplaceFirst (s pat : String) : String :=
  String.mk (dropFirstOcc pat.data s.data)

/-- JS instId.split(dash)[0]: the characters before the first dash. -/
def takeBeforeDash (s : String) : String :=
  String.mk (s.data.takeWhile fun c => c ≠ '-')

/-- JS Number.prototype.toFixed(4) on an exact rational: round to 4 decimal
places, ties toward positive infinity (the larger candidate), modelled on the
exact value rather than the binary double. -/
def toFixed4 (q : ℚ) : ℚ :=
  (Int.floor (q * 10000 + 1/2) : ℚ) / 10000

/-- The string (parseFloat(x) * 100).toFixed(4) as seen by later parses: a
non-empty (truthy) string; when the source parse was NaN the result is the
string NaN, which parses back to NaN (none). -/
def pctString (p : Option ℚ) : JStr :=
  ⟨true, p.map fun q => toFixed4 (q * 100)⟩

/-- JS (parseInt result) || d, where the stored value replaces a falsy parse
(NaN or 0). -/
def jsOrInt (v : Option ℤ) (d : ℚ) : ℚ :=
  match v with
  | some n => if n = 0 then d else (n : ℚ)
  | none => d

/-- JS (map lookup) || d on an interval map value. -/
def jsOrQ (v : Option ℚ) (d : ℚ) : ℚ :=
  match v with
  | some x => if x = 0 then d else x
  | none => d

/-- Lookup in a JS object built by successive assignments: the last write for
a key wins. -/
def mapGet (m : List (String × ℚ)) (k : String) : Option ℚ :=
  m.reverse.lookup k

/-- One entry of the Binance premiumIndex payload; lastFundingRate is a
string, used only through parseFloat (none = NaN). -/
structure BinanceItem where
  symbol : String
  lastFundingRate : Option ℚ
deriving DecidableEq, Repr

/-- One entry of the Binance fundingInfo payload; fundingIntervalHours is
used through parseInt (none = NaN). -/
structure BinanceFundingInfo where
  symbol : String
  fundingIntervalHours : Option ℤ
deriving DecidableEq, Repr

/-- The Binance settlement-interval map: symbol to parseInt(hours) || 8. -/
def binanceIntervalsOf (info : Option (List BinanceFundingInfo)) :
    List (String × ℚ) :=
  match info with
  | none => []
  | some l => l.map fun i => (i.symbol, jsOrInt i.fundingIntervalHours 8)

/-- The Binance normalizer: keep USDT-suffixed instruments, strip the suffix,
convert the fractional rate to a 4-digit percent string, resolve the interval
from the funding-info map with default 8. -/
def binanceRatesOf (info : Option (List BinanceFundingInfo))
    (items : Option (List BinanceItem)) : List Rate :=
  match items with
  | none => []
  | some l =>
    (l.filter fun it => jsEndsWith it.symbol "USDT").map fun it =>
      let interval := jsOrQ (mapGet (binanceIntervalsOf info) it.symbol) 8
      { symbol := jsReplaceFirst it.symbol "USDT"
        exchange := "Binance"
        currentRate := some (pctString it.lastFundingRate)
        settlementInterval := some interval
        isSpecialInterval := decide (interval ≠ 8)
        isHourly := false }

/-- One entry of the Bybit tickers payload (result.list). -/
structure BybitItem where
  symbol : String
  fundingRate : JStr
deriving DecidableEq, Repr

/-- One entry of the Bybit instruments-info payload (result.list);
fundingInterval is in minutes, used through parseInt. -/
structure BybitInstrument where
  symbol : String
  fundingInterval : Option ℤ
deriving DecidableEq, Repr

/-- The Bybit settlement-interval map: symbol to
(parseInt(minutes) || 480) / 60 hours. -/
def bybitIntervalsOf (instr : Option (List BybitInstrument)) :
    List (String × ℚ) :=
  match instr with
  | none => []
  | some l => l.map fun i => (i.symbol, jsOrInt i.fundingInterval 480 / 60)

/-- The Bybit normalizer: keep USDT-suffixed instruments with a truthy
fundingRate string. -/
def bybitRatesOf (instr : Option (List BybitInstrument))
    (items : Option (List BybitItem)) : List Rate :=
  match items with
  | none => []
  | some l =>
    (l.filter fun it => jsEndsWith it.symbol "USDT" && it.fundingRate.truthy).map
      fun it =>
        let interval := jsOrQ (mapGet (bybitIntervalsOf instr) it.symbol) 8
        { symbol := jsReplaceFirst it.symbol "USDT"
          exchange := "Bybit"
          currentRate := some (pctString it.fundingRate.parsed)
          settlementInterval := some interval
          isSpecialInterval := decide (interval ≠ 8)
          isHourly := false }

/-- One entry of the Bitget tickers payload (data). -/
structure BitgetItem where
  symbol : String
  fundingRate : JStr
deriving DecidableEq, Repr

/-- One entry of the Bitget contracts payload (data); fundInterval is used
through parseInt. -/
structure BitgetContract where
  symbol : String
  fundInterval : Option ℤ
deriving DecidableEq, Repr

/-- The Bitget settlement-interval map: symbol to parseInt(hours) || 8. -/
def bitgetIntervalsOf (contracts : Option (List BitgetContract)) :
    List (String × ℚ) :=
  match contracts with
  | none => []
  | some l => l.map fun c => (c.symbol, jsOrInt c.fundInterval 8)

/-- The Bitget normalizer: keep entries with truthy symbol and truthy
fundingRate string. -/
def bitgetRatesOf (contracts : Option (List BitgetContract))
    (items : Option (List BitgetItem)) : List Rate :=
  match items with
  | none => []
  | some l =>
    (l.filter fun it => !(it.symbol == "") && it.fundingRate.truthy).map fun it =>
      let interval := jsOrQ (mapGet (bitgetIntervalsOf contracts) it.symbol) 8
      { symbol := jsReplaceFirst it.symbol "USDT"
        exchange := "Bitget"
        currentRate := some (pctString it.fundingRate.parsed)
        settlementInterval := some interval
        isSpecialInterval := decide (interval ≠ 8)
        isHourly := false }

/-- The data[0] entry of one OKX per-instrument funding-rate response.
fundingRate is used through parseFloat (none = NaN); the two timestamps are
used through parseInt (none = NaN). -/
structure OkxFundingItem where
  instId : String
  fundingRate : Option ℚ
  nextFundingTime : Option ℤ
  fundingTime : Option ℤ
deriving DecidableEq, Repr

/-- The OKX normalizer over the collected per-instrument responses (none
models a failed call or a response without data[0]). A record is dropped when
instId is falsy or the parsed rate is falsy (0 or NaN). The settlement
interval is (nextFundingTime - fundingTime) milliseconds in hours, NaN
(none) when a timestamp fails to parse, and then flagged special. When the
tickers listing itself was null the member access on it throws inside the
surrounding try block and the OKX source degrades to zero rates. -/
def okxRatesOf (tickers : Option Unit) (fund : List (Option OkxFundingItem)) :
    List Rate :=
  match tickers with
  | none => []
  | some _ =>
    fund.filterMap fun od =>
      match od with
      | none => none
      | some item =>
        if item.instId = "" then none
        else
          match item.fundingRate with
          | none => none
          | some fr =>
            if fr = 0 then none
            else
              let interval : Option ℚ :=
                match item.nextFundingTime, item.fundingTime with
                | some a, some b => some (((a : ℚ) - (b : ℚ)) / (1000 * 60 * 60))
                | _, _ => none
              some { symbol := takeBeforeDash item.instId
                     exchange := "OKX"
                     currentRate := some (pctString (some fr))
                     settlementInterval := interval
                     isSpecialInterval :=
                       match interval with
                       | none => true
                       | some v => decide (v ≠ 8)
                     isHourly := false }

/-- One asset of the HyperLiquid universe metadata. -/
structure HlAsset where
  name : String
deriving DecidableEq, Repr

/-- One HyperLiquid asset context; funding is used through parseFloat. -/
structure HlCtx where
  funding : Option ℚ
deriving DecidableEq, Repr

/-- The HyperLiquid metaAndAssetCtxs payload: the asset universe list (named
universeList here because universe is a Lean keyword) and the per-asset
context list, zipped by index. -/
structure HlPayload where
  universeList : List HlAsset
  ctxs : List HlCtx
deriving DecidableEq, Repr

/-- The HyperLiquid normalizer: zip universe and contexts by index; a missing
index would throw inside the try block, degrading the whole source to zero
rates, so a context list shorter than the universe yields nothing. Settlement
interval is fixed at 1 hour and the record always flagged special. -/
def hyperliquidRatesOf (p : Option HlPayload) : List Rate :=
  match p with
  | none => []
  | some pl =>
    if pl.ctxs.length < pl.universeList.length then []
    else
      (pl.universeList.zip pl.ctxs).map fun z =>
        { symbol := z.1.name
          exchange := "HyperLiquid"
          currentRate := some (pctString z.2.funding)
          settlementInterval := some 1
          isSpecialInterval := true
          isHourly := false }

/-- One Gate futures contract; funding_rate is a string (truthiness checked,
then parseFloat), funding_interval a number of seconds (absent = undefined,
whose division yields NaN). -/
structure GateContract where
  name : String
  funding_rate : JStr
  funding_interval : Option ℚ
deriving DecidableEq, Repr

/-- The Gate normalizer: keep USDT-suffixed contract names with a truthy
funding_rate; settlement interval is funding_interval / 3600 || 8 (absent or
zero falls back to 8). -/
def gateRatesOf (contracts : Option (List GateContract)) : List Rate :=
  match contracts with
  | none => []
  | some l =>
    (l.filter fun c => !(c.name == "") && jsEndsWith c.name "_USDT").filterMap
      fun c =>
        if c.funding_rate.truthy then
          let interval : ℚ :=
            match c.funding_interval with
            | some n => if n / 3600 = 0 then 8 else n / 3600
            | none => 8
          some { symbol := jsReplaceFirst c.name "_USDT"
                 exchange := "Gate"
                 currentRate := some (pctString c.funding_rate.parsed)
                 settlementInterval := some interval
                 isSpecialInterval := decide (interval ≠ 8)
                 isHourly := false }
        else none

/-- The ten upstream responses of one aggregation cycle, each none when that
call failed (transport error, non-2xx status or JSON parse failure). The
OKX per-instrument funding responses are the collected results of the
batched secondary calls; the unused okxInstruments response is omitted. -/
structure Responses where
  binanceRates : Option (List BinanceItem)
  binanceFundingInfo : Option (List BinanceFundingInfo)
  bybitRates : Option (List BybitItem)
  bybitInstruments : Option (List BybitInstrument)
  bitgetRates : Option (List BitgetItem)
  bitgetContracts : Option (List BitgetContract)
  okxTickers : Option Unit
  okxFunding : List (Option OkxFundingItem)
  hyperliquid : Option HlPayload
  gateContracts : Option (List GateContract)

/-- The merge filter applied to the concatenated normalizer outputs:
item && item.currentRate && !isNaN(parseFloat(item.currentRate)) &&
parseFloat(item.currentRate) !== 0. -/
def ratePasses (r : Rate) : Bool :=
  match r.currentRate with
  | none => false
  | some js => js.truthy && (match js.parsed with
    | none => false
    | some q => decide (q ≠ 0))

/-- The concatenation of the six normalizer outputs, before the merge
filter. -/
def mergedInput (resp : Responses) : List Rate :=
  binanceRatesOf resp.binanceFundingInfo resp.binanceRates ++
  bybitRatesOf resp.bybitInstruments resp.bybitRates ++
  bitgetRatesOf resp.bitgetContracts resp.bitgetRates ++
  okxRatesOf resp.okxTickers resp.okxFunding ++
  hyperliquidRatesOf resp.hyperliquid ++
  gateRatesOf resp.gateContracts

/-- The merged rate list: the concatenated normalizer outputs through the
validity filter. -/
def allRatesOf (resp : Responses) : List Rate :=
  (mergedInput resp).filter ratePasses

/-- The result object of one aggregation cycle. The catch branch of the
source returns success false with empty data; it is reachable only through a
thrown exception (such as a non-null, non-array payload), which the typed
payload model excludes, so the modelled function always reports success. The
debug counts are omitted. -/
structure FetchResult where
  success : Bool
  data : List Rate
  arbitrageOpportunities : List Opp
deriving DecidableEq, Repr

/-- The aggregator fetchAllExchangeData as a function of the upstream
responses: normalize, merge, filter, attach the detector output. -/
def fetchAllExchangeData (resp : Responses) : FetchResult :=
  { success := true
    data := allRatesOf resp
    arbitrageOpportunities := calculateArbitrageOpportunities (allRatesOf resp) }

/-- The special-interval flag as computed from an optional interval agrees
with the comparison against 8 (a NaN interval, none, is unequal to 8, as in
the source where NaN compared to 8 with strict inequality yields true). -/
theorem special_of_option (oi : Option ℚ) :
    (match oi with
      | none => true
      | some v => decide (v ≠ 8)) = true ↔ oi ≠ some 8 := by
  cases oi <;> simp

/-- C8: every rate record emitted by any of the six normalizers satisfies
isSpecialInterval = true exactly when its settlementInterval is not 8. -/
theorem c8_special_interval :
    (∀ info items r, r ∈ binanceRatesOf info items →
      (r.isSpecialInterval = true ↔ r.settlementInterval ≠ some 8)) ∧
    (∀ instr items r, r ∈ bybitRatesOf instr items →
      (r.isSpecialInterval = true ↔ r.settlementInterval ≠ some 8)) ∧
    (∀ contracts items r, r ∈ bitgetRatesOf contracts items →
      (r.isSpecialInterval = true ↔ r.settlementInterval ≠ some 8)) ∧
    (∀ tickers fund r, r ∈ okxRatesOf tickers fund →
      (r.isSpecialInterval = true ↔ r.settlementInterval ≠ some 8)) ∧
    (∀ p r, r ∈ hyperliquidRatesOf p →
      (r.isSpecialInterval = true ↔ r.settlementInterval ≠ some 8)) ∧
    (∀ contracts r, r ∈ gateRatesOf contracts →
      (r.isSpecialInterval = true ↔ r.settlementInterval ≠ some 8)) := by
  refine ⟨?_, ?_, ?_, ?_, ?_, ?_⟩
  · intro info items r hr
    cases items with
    | none => cases hr
    | some l =>
      obtain ⟨it, _, rfl⟩ := List.mem_map.mp hr
      exact special_of_option (some _)
  · intro instr items r hr
    cases items with
    | none => cases hr
    | some l =>
      obtain ⟨it, _, rfl⟩ := List.mem_map.mp hr
      exact special_of_option (some _)
  · intro contracts items r hr
    cases items with
    | none => cases hr
    | some l =>
      obtain ⟨it, _, rfl⟩ := List.mem_map.mp hr
      exact special_of_option (some _)
  · intro tickers fund r hr
    cases tickers with
    | none => cases hr
    | some u =>
      obtain ⟨od, _, heq⟩ := List.mem_filterMap.mp hr
      cases od with
      | none => cases heq
      | some item =>
        dsimp only at heq
        by_cases h1 : item.instId = ""
        · rw [if_pos h1] at heq
          cases heq
        · rw [if_neg h1] at heq
          cases hfr : item.fundingRate with
          | none => rw [hfr] at heq; cases heq
          | some fr =>
            rw [hfr] at heq
            dsimp only at heq
            by_cases h2 : fr = 0
            · rw [if_pos h2] at heq
              cases heq
            · rw [if_neg h2] at heq
              cases heq
              exact special_of_option _
  · intro p r hr
    cases p with
    | none => cases hr
    | some pl =>
      unfold hyperliquidRatesOf at hr
      dsimp only at hr
      by_cases hlen : pl.ctxs.length < pl.universeList.length
      · rw [if_pos hlen] at hr
        cases hr
      · rw [if_neg hlen] at hr
        obtain ⟨z, _, rfl⟩ := List.mem_map.mp hr
        constructor
        · intro _
          intro hc
          have : (1 : ℚ) = 8 := Option.some.inj hc
          norm_num at this
        · intro _
          rfl
  · intro contracts r hr
    cases contracts with
    | none => cases hr
    | some l =>
      obtain ⟨c, _, heq⟩ := List.mem_filterMap.mp hr
      by_cases ht : c.funding_rate.truthy = true
      · rw [if_pos ht] at heq
        cases heq
        exact special_of_option (some _)
      · rw [if_neg ht] at heq
        cases heq

/-- Sample HyperLiquid payload for the C8 witness: one asset whose funding
field fails to parse. -/
def hlSamplePayload : HlPayload :=
  { universeList := [{ name := "BTC" }], ctxs := [{ funding := none }] }

/-- The rate the HyperLiquid normalizer emits for hlSamplePayload. -/
def hlSampleRate : Rate :=
  { symbol := "BTC", exchange := "HyperLiquid", currentRate := some ⟨true, none⟩
    settlementInterval := some 1, isSpecialInterval := true, isHourly := false }

/-- C8 witness: the membership hypothesis holds at a concrete HyperLiquid
payload and the flag agrees with the interval comparison there. -/
theorem c8_witness :
    hlSampleRate ∈ hyperliquidRatesOf (some hlSamplePayload) ∧
    (hlSampleRate.isSpecialInterval = true ↔
      hlSampleRate.settlementInterval ≠ some 8) := by
  have hmem : hlSampleRate ∈ hyperliquidRatesOf (some hlSamplePayload) := by
    unfold hyperliquidRatesOf hlSamplePayload
    simp [pctString, hlSampleRate]
  exact ⟨hmem, c8_special_interval.2.2.2.2.1 (some hlSamplePayload) hlSampleRate hmem⟩

/-- Responses where Binance returned the single raw instrument USDT (a
symbol equal to the quote suffix, whose canonical symbol after stripping is
empty) with a small nonzero funding rate, and every other source failed. -/
def respBinanceOnly : Responses :=
  { binanceRates := some [{ symbol := "USDT", lastFundingRate := some (1/10000) }]
    binanceFundingInfo := none
    bybitRates := none
    bybitInstruments := none
    bitgetRates := none
    bitgetContracts := none
    okxTickers := none
    okxFunding := []
    hyperliquid := none
    gateContracts := none }

/-- The rate the Binance normalizer emits for respBinanceOnly: an empty
symbol, yet a valid nonzero rate of 0.01 percent. -/
def emptySymbolRate : Rate :=
  { symbol := ""
    exchange := "Binance"
    currentRate := some ⟨true, some (1/100)⟩
    settlementInterval := some 8
    isSpecialInterval := false
    isHourly := false }

/-- The Binance normalizer output on respBinanceOnly, evaluated. -/
theorem binance_empty_symbol_eval :
    mergedInput respBinanceOnly = [emptySymbolRate] := by
  have htf : toFixed4 (1/100) = 1/100 := by
    unfold toFixed4
    norm_num
  have hend : jsEndsWith "USDT" "USDT" = true := by decide
  have hrep : jsReplaceFirst "USDT" "USDT" = "" := by decide
  unfold mergedInput respBinanceOnly binanceRatesOf bybitRatesOf bitgetRatesOf
    okxRatesOf hyperliquidRatesOf gateRatesOf
  dsimp only
  simp only [List.filter_cons, List.filter_nil, hend, if_true]
  simp only [List.map_cons, List.map_nil, List.append_nil, List.nil_append]
  unfold pctString mapGet binanceIntervalsOf jsOrQ emptySymbolRate
  simp only [List.reverse_nil, List.lookup_nil, hrep]
  norm_num [htf]

/-- C4 counterexample: a record produced by the Binance normalizer whose
symbol is empty nevertheless appears in the merged rate list, so the merged
list is not restricted to records with non-empty symbol and exchange. -/
theorem c4_counterexample :
    emptySymbolRate ∈ allRatesOf respBinanceOnly ∧ emptySymbolRate.symbol = "" := by
  refine ⟨?_, rfl⟩
  unfold allRatesOf
  rw [binance_empty_symbol_eval]
  rw [List.mem_filter]
  refine ⟨List.mem_singleton.mpr rfl, ?_⟩
  unfold ratePasses emptySymbolRate
  dsimp only
  rw [Bool.and_eq_true]
  refine ⟨rfl, ?_⟩
  rw [decide_eq_true_iff]
  norm_num

/-- C4 as amended: a record from the normalizers appears in the merged rate
list exactly when its currentRate string is truthy and parses to a number
that is not NaN and not exactly zero; the merge filter does not inspect
symbol or exchange. -/
theorem c4_merge_filter (resp : Responses) (r : Rate) :
    r ∈ allRatesOf resp ↔
      (r ∈ mergedInput resp ∧ ∃ js q, r.currentRate = some js ∧
        js.truthy = true ∧ js.parsed = some q ∧ q ≠ 0) := by
  unfold allRatesOf
  rw [List.mem_filter]
  refine and_congr_right fun _ => ?_
  unfold ratePasses
  cases hcr : r.currentRate with
  | none => simp
  | some js =>
    cases hp : js.parsed with
    | none => simp [hp]
    | some q =>
      rw [Bool.and_eq_true]
      constructor
      · rintro ⟨ht, hq⟩
        rw [hp, decide_eq_true_iff] at hq
        exact ⟨js, q, rfl, ht, hp, hq⟩
      · rintro ⟨js2, q2, hjs2, ht2, hp2, hq2⟩
        cases Option.some.inj hjs2
        refine ⟨ht2, ?_⟩
        rw [hp, decide_eq_true_iff]
        rw [hp] at hp2
        cases Option.some.inj hp2
        exact hq2

/-! ### Snapshot cache, handler, broadcast -/

/-- The on-demand cache TTL in milliseconds. -/
def CACHE_DURATION : ℤ := 60000

/-- The response object cached by the handler (the lastUpdate string and the
error message carry no verified content and are omitted). -/
structure CachedResult where
  success : Bool
  data : List Rate
  arbitrageOpportunities : List Opp
deriving DecidableEq, Repr

/-- The module-level mutable cache: cachedData and lastCacheTime. -/
structure CacheState where
  cachedData : Option CachedResult
  lastCacheTime : ℤ
deriving DecidableEq, Repr

/-- The freshness test of the handler:
cachedData && currentTime - lastCacheTime < CACHE_DURATION. -/
def isFresh (c : CacheState) (now : ℤ) : Bool :=
  c.cachedData.isSome && decide (now - c.lastCacheTime < CACHE_DURATION)

/-- What the handler sends back: a 200 with a result body, or a 500. -/
inductive HandlerResponse
  | ok (body : CachedResult)
  | err
deriving DecidableEq, Repr

/-- The result object the handler builds and caches from a successful fetch
(it recomputes the opportunities from the returned data itself). -/
def mkResult (r : FetchResult) : CachedResult :=
  { success := true
    data := r.data
    arbitrageOpportunities := calculateArbitrageOpportunities r.data }

/-- One run of the API handler at time now, given the value the awaited
fetchAllExchangeData call would produce. Returns the response, the cache
state afterwards, and whether the upstream fetch was performed. A fetched
value with success false models the catch path of fetchAllExchangeData (an
exception thrown on a malformed non-null payload): the handler answers 500
and leaves the cache untouched. -/
def handlerStep (c : CacheState) (now : ℤ) (fetched : FetchResult) :
    HandlerResponse × CacheState × Bool :=
  if isFresh c now then
    (match c.cachedData with
      | some d => HandlerResponse.ok d
      | none => HandlerResponse.err,
     c, false)
  else if fetched.success then
    (HandlerResponse.ok (mkResult fetched), ⟨some (mkResult fetched), now⟩, true)
  else
    (HandlerResponse.err, c, true)

/-- A sequence of pull requests (arrival time and the fetch outcome each
would observe), threaded through the cache; returns the final cache state
and how many upstream aggregation cycles were triggered. -/
def requestsRun (c : CacheState) (reqs : List (ℤ × FetchResult)) :
    CacheState × Nat :=
  reqs.foldl
    (fun acc req =>
      let out := handlerStep acc.1 req.1 req.2
      (out.2.1, acc.2 + (if out.2.2 then 1 else 0)))
    (c, 0)

/-- The periodic broadcastData path: it always fetches and stores the fetch
result object in the cache unconditionally, stamping the current time. -/
def broadcastStep (t : ℤ) (r : FetchResult) : CacheState :=
  ⟨some { success := r.success, data := r.data
          arbitrageOpportunities := r.arbitrageOpportunities }, t⟩

/-- On a fresh cache the handler serves the cached body without fetching and
leaves the cache unchanged. -/
theorem handlerStep_eq_of_fresh (c : CacheState) (t : ℤ) (r : FetchResult)
    (h : isFresh c t = true) :
    handlerStep c t r =
      ((match c.cachedData with
        | some d => HandlerResponse.ok d
        | none => HandlerResponse.err), c, false) := by
  unfold handlerStep
  rw [if_pos h]

/-- On a stale cache and a successful fetch the handler stores and returns
the rebuilt result. -/
theorem handlerStep_eq_of_stale_success (c : CacheState) (t : ℤ)
    (r : FetchResult) (h : isFresh c t = false) (hr : r.success = true) :
    handlerStep c t r =
      (HandlerResponse.ok (mkResult r), ⟨some (mkResult r), t⟩, true) := by
  unfold handlerStep
  rw [if_neg (by simp [h]), if_pos hr]

/-- On a stale cache and a failed fetch the handler answers 500 and leaves
the cache untouched. -/
theorem handlerStep_eq_of_stale_fail (c : CacheState) (t : ℤ)
    (r : FetchResult) (h : isFresh c t = false) (hr : r.success = false) :
    handlerStep c t r = (HandlerResponse.err, c, true) := by
  unfold handlerStep
  rw [if_neg (by simp [h]), if_neg (by simp [hr])]

/-- Responses in which every upstream call failed (all nulls). -/
def allFailedResponses : Responses :=
  { binanceRates := none
    binanceFundingInfo := none
    bybitRates := none
    bybitInstruments := none
    bitgetRates := none
    bitgetContracts := none
    okxTickers := none
    okxFunding := []
    hyperliquid := none
    gateContracts := none }

/-- A previous good snapshot holding one rate, for the cache-retention
counterexample. -/
def sampleCached : CachedResult :=
  { success := true, data := [noIntervalRate], arbitrageOpportunities := [] }

/-- C3 counterexample: with every exchange source failed, the refresh still
reports success with an empty data list, and a handler run on a stale cache
holding a previous good snapshot replaces it with the empty result instead
of retaining it. -/
theorem c3_counterexample :
    (fetchAllExchangeData allFailedResponses).success = true ∧
    (fetchAllExchangeData allFailedResponses).data = [] ∧
    (handlerStep ⟨some sampleCached, 0⟩ 60000
        (fetchAllExchangeData allFailedResponses)).2.1 =
      ⟨some (mkResult (fetchAllExchangeData allFailedResponses)), 60000⟩ :=
  ⟨rfl, rfl, rfl⟩

/-- C3 as amended: the aggregation reports success no matter how many
sources failed (failure would require an exception escaping its body), and a
stale-cache handler run always replaces the cached snapshot with the freshly
built result, including the empty one produced when every source failed. -/
theorem c3_amended (resp : Responses) (c : CacheState) (t : ℤ)
    (hstale : isFresh c t = false) :
    (fetchAllExchangeData resp).success = true ∧
    (handlerStep c t (fetchAllExchangeData resp)).2.1 =
      ⟨some (mkResult (fetchAllExchangeData resp)), t⟩ := by
  refine ⟨rfl, ?_⟩
  unfold handlerStep
  rw [if_neg (by simp [hstale]),
    if_pos (show (fetchAllExchangeData resp).success = true from rfl)]

/-- C3 witness: the staleness hypothesis holds at an empty cache and time 0,
and the amended conclusion follows there for the all-failed responses. -/
theorem c3_witness :
    isFresh ⟨none, 0⟩ 0 = false ∧
    ((fetchAllExchangeData allFailedResponses).success = true ∧
      (handlerStep ⟨none, 0⟩ 0 (fetchAllExchangeData allFailedResponses)).2.1 =
        ⟨some (mkResult (fetchAllExchangeData allFailedResponses)), 0⟩) :=
  ⟨rfl, c3_amended allFailedResponses ⟨none, 0⟩ 0 rfl⟩

/-- A fetch outcome for the catch path: the aggregation threw and reported
success false. -/
def failedFetch : FetchResult :=
  { success := false, data := [], arbitrageOpportunities := [] }

/-- A successful fetch outcome with no data, for witnesses. -/
def okFetch : FetchResult :=
  { success := true, data := [], arbitrageOpportunities := [] }

/-- C6 counterexample: two pull requests 1000 ms apart (well within the
60-second TTL) with no intervening broadcast refresh trigger two upstream
aggregation cycles when the first refresh fails, because a failed refresh is
not cached. -/
theorem c6_counterexample :
    (1000 : ℤ) - 0 < CACHE_DURATION ∧
    (requestsRun ⟨none, 0⟩ [(0, failedFetch), (1000, failedFetch)]).2 = 2 :=
  ⟨by decide, rfl⟩

/-- C6 as amended: a fresh cache is served without fetching and unchanged; a
stale cache triggers a synchronous refresh whose successful result replaces
the cache and is returned; and two pull requests within the TTL trigger at
most one aggregation cycle provided the first triggered refresh succeeds (a
failed refresh is not cached, so a retry within the TTL fetches again). -/
theorem c6_amended :
    (∀ (c : CacheState) (t : ℤ) (r : FetchResult) (d : CachedResult),
      c.cachedData = some d → isFresh c t = true →
      handlerStep c t r = (HandlerResponse.ok d, c, false)) ∧
    (∀ (c : CacheState) (t : ℤ) (r : FetchResult),
      isFresh c t = false → r.success = true →
      handlerStep c t r =
        (HandlerResponse.ok (mkResult r), ⟨some (mkResult r), t⟩, true)) ∧
    (∀ (c0 : Option CachedResult) (l0 t1 t2 : ℤ) (r1 r2 : FetchResult),
      t2 - t1 < CACHE_DURATION → r1.success = true →
      (requestsRun ⟨c0, l0⟩ [(t1, r1), (t2, r2)]).2 ≤ 1) := by
  refine ⟨?_, ?_, ?_⟩
  · intro c t r d hcd hfresh
    rw [handlerStep_eq_of_fresh c t r hfresh, hcd]
  · intro c t r hstale hr
    exact handlerStep_eq_of_stale_success c t r hstale hr
  · intro c0 l0 t1 t2 r1 r2 hTTL hs
    unfold requestsRun
    simp only [List.foldl_cons, List.foldl_nil]
    cases h1 : isFresh ⟨c0, l0⟩ t1 with
    | true =>
      rw [handlerStep_eq_of_fresh ⟨c0, l0⟩ t1 r1 h1]
      simp only [Bool.false_eq_true, if_false, Nat.zero_add]
      cases hb : (handlerStep ⟨c0, l0⟩ t2 r2).2.2 <;> simp [hb]
    | false =>
      rw [handlerStep_eq_of_stale_success ⟨c0, l0⟩ t1 r1 h1 hs]
      have h2 : isFresh ⟨some (mkResult r1), t1⟩ t2 = true := by
        unfold isFresh
        simp [hTTL]
      rw [handlerStep_eq_of_fresh ⟨some (mkResult r1), t1⟩ t2 r2 h2]
      simp

/-- C6 witness: the hypotheses of the at-most-one-cycle conjunct hold for
two successful requests 5 ms apart on an empty cache, and at most one cycle
is triggered. -/
theorem c6_witness :
    ((5 : ℤ) - 0 < CACHE_DURATION ∧ okFetch.success = true) ∧
    (requestsRun ⟨none, 0⟩ [(0, okFetch), (5, okFetch)]).2 ≤ 1 :=
  ⟨⟨by decide, rfl⟩, c6_amended.2.2 none 0 0 5 okFetch okFetch (by decide) rfl⟩

/-! ### Interleaving of concurrent requests -/

/-- Global state of the event-loop interleaving model: the cache plus the
requests whose fetch is currently in flight (each with the time captured at
its cache check and the outcome its fetch will produce). -/
structure SysState where
  cache : CacheState
  inflight : List (ℤ × FetchResult)
deriving DecidableEq, Repr

/-- Events of the interleaving model: a request runs its synchronous prefix
(cache check, and when stale it launches its fetch), or the oldest in-flight
fetch resolves and the handler continuation applies its result. -/
inductive SysEv
  | arrive (t : ℤ) (r : FetchResult)
  | complete

/-- One scheduler step. A request arriving on a fresh cache is served at
once; on a stale cache its fetch joins the in-flight list (the cache is only
written when a fetch completes, exactly as in the async handler, whose await
of fetchAllExchangeData sits between the check and the write). -/
def sysStep (s : SysState) (e : SysEv) : SysState :=
  match e with
  | SysEv.arrive t r =>
    if isFresh s.cache t then s else { s with inflight := s.inflight ++ [(t, r)] }
  | SysEv.complete =>
    match s.inflight with
    | [] => s
    | (t, r) :: rest =>
      { cache := if r.success then ⟨some (mkResult r), t⟩ else s.cache
        inflight := rest }

/-- Run a list of scheduler events. -/
def sysRun (s : SysState) (evs : List SysEv) : SysState :=
  evs.foldl sysStep s

/-- C9 counterexample: from an empty cache, a second request arriving while
the first request's refresh is still in flight starts its own refresh, so
two refreshes are in flight at once — there is no single-flight discipline
and the late request does not wait for the in-flight result. -/
theorem c9_counterexample :
    (sysRun ⟨⟨none, 0⟩, []⟩
        [SysEv.arrive 0 okFetch, SysEv.arrive 1 okFetch]).inflight.length = 2 :=
  rfl

/-- C9 as amended: a request that observes a stale cache always starts its
own independent refresh, growing the number of in-flight refreshes by one,
regardless of how many refreshes are already in flight. -/
theorem c9_amended (s : SysState) (t : ℤ) (r : FetchResult)
    (h : isFresh s.cache t = false) :
    (sysStep s (SysEv.arrive t r)).inflight.length = s.inflight.length + 1 := by
  unfold sysStep
  dsimp only
  rw [if_neg (by simp [h])]
  simp

/-- C9 witness: the staleness hypothesis holds at a state with one refresh
already in flight, and the arriving request makes it two. -/
theorem c9_witness :
    isFresh (SysState.mk ⟨none, 0⟩ [((0 : ℤ), okFetch)]).cache 5 = false ∧
    (sysStep ⟨⟨none, 0⟩, [((0 : ℤ), okFetch)]⟩
        (SysEv.arrive 5 okFetch)).inflight.length =
      (SysState.mk ⟨none, 0⟩ [((0 : ℤ), okFetch)]).inflight.length + 1 :=
  ⟨rfl, c9_amended ⟨⟨none, 0⟩, [((0 : ℤ), okFetch)]⟩ 5 okFetch rfl⟩

end FundingRate
